import Mathlib

/-!
Verification development for the playlist watch-time aggregation service.

The embedded code is the API route handler: a playlist-id extractor built on
an unanchored regular expression, an ISO-8601-style duration parser, a
cursor-following pagination loop, a batch-of-50 details fetcher, 1-based
range selection with clamping, a join of membership entries with metadata by
video id, and total/average reduction with a best-effort playlist-title
lookup.  External HTTP services are modelled by their responses: the
membership service by the list of pages it returns in sequence, the video
details service by a function from an id batch to returned items, and the
title lookup by an outcome value.
-/

/-! ## Duration parsing (parseDuration, route.ts lines 40-52) -/

/-- Value of a decimal digit string, as computed by parseInt on a digit run
(48 is the code point of the zero digit). -/
def natOfDigits (ds : List Char) : Nat :=
  ds.foldl (fun acc c => acc * 10 + (c.toNat - 48)) 0

/-- Locate the first occurrence of the literal "PT" and return the remaining
characters.  The regular expression in parseDuration is unanchored, and all
component groups after the literal are optional, so the match succeeds exactly
at the first "PT" occurrence. -/
def findPT : List Char → Option (List Char)
  | 'P' :: 'T' :: rest => some rest
  | _ :: rest => findPT rest
  | [] => none

/-- Match one optional regex component, a nonempty digit run followed by the
unit letter.  The greedy digit group must be followed by the unit letter:
backtracking inside the digit run cannot help, because dropping trailing
digits leaves a digit (not the unit letter) as the next character. -/
def matchUnit (u : Char) (s : List Char) : Option (Nat × List Char) :=
  if (s.takeWhile Char.isDigit).length = 0 then none
  else
    match s.drop (s.takeWhile Char.isDigit).length with
    | [] => none
    | c :: rest =>
      if c = u then some (natOfDigits (s.takeWhile Char.isDigit), rest) else none

/-- One optional component of the duration regex: on failure the component
contributes 0 and consumes nothing (parseInt of the fallback zero string). -/
def component (u : Char) (s : List Char) : Nat × List Char :=
  match matchUnit u s with
  | some r => r
  | none => (0, s)

/-- Mirrors parseDuration: match PT(?:(\d+)H)?(?:(\d+)M)?(?:(\d+)S)? against
the string; a failed match yields 0; otherwise hours*3600 + minutes*60 +
seconds with absent components read as 0. -/
def parseDuration (duration : String) : Nat :=
  match findPT duration.data with
  | none => 0
  | some rest =>
    let h := component 'H' rest
    let m := component 'M' h.2
    let s := component 'S' m.2
    h.1 * 3600 + m.1 * 60 + s.1

/-! ## Playlist id extraction (extractPlaylistId, route.ts lines 34-38) -/

/-- Character class of the capture group [a-zA-Z0-9_-]. -/
def isIdChar (c : Char) : Bool :=
  c.isUpper || c.isLower || c.isDigit || c = '_' || c = '-'

/-- Drop a literal pattern from the front of a string, character by
character; none when the pattern is not a prefix. -/
def dropPref : List Char → List Char → Option (List Char)
  | [], s => some s
  | _ :: _, [] => none
  | c :: p, d :: s => if c = d then dropPref p s else none

/-- First literal alternative of the extractor regex. -/
def youtubePat : List Char := String.data ("youtube.com/playlist?list=")

/-- Second literal alternative of the extractor regex. -/
def youtuBePat : List Char := String.data ("youtu.be/playlist?list=")

/-- Attempt of the extractor regex at one fixed position: one of the two
literal alternatives followed by a nonempty run of id characters; the capture
is the maximal such run. -/
def extractAt (s : List Char) : Option (List Char) :=
  (dropPref youtubePat s <|> dropPref youtuBePat s).bind (fun rest =>
    match rest.takeWhile isIdChar with
    | [] => none
    | c :: cs => some (c :: cs))

/-- Unanchored search: try the regex at each position left to right and keep
the first success, as the match method does. -/
def extractScan : List Char → Option (List Char)
  | [] => none
  | c :: cs =>
    match extractAt (c :: cs) with
    | some r => some r
    | none => extractScan cs

/-- Mirrors extractPlaylistId: the first capture of the unanchored regex, or
none when no position matches. -/
def extractPlaylistId (url : String) : Option String :=
  (extractScan url.data).map (fun l => String.mk l)

/-! ## Data shapes of the route (route.ts lines 3-32, 206-215) -/

/-- Mirrors the resourceId field of a playlist item snippet. -/
structure ResourceId where
  videoId : String
deriving DecidableEq

/-- Mirrors the snippet field of a PlaylistItem. -/
structure PlaylistItemSnippet where
  title : String
  resourceId : ResourceId
deriving DecidableEq

/-- Mirrors the PlaylistItem interface. -/
structure PlaylistItem where
  snippet : PlaylistItemSnippet
deriving DecidableEq

/-- Mirrors the snippet field of a VideoItem. -/
structure VideoSnippet where
  title : String
deriving DecidableEq

/-- Mirrors the contentDetails field of a VideoItem. -/
structure ContentDetails where
  duration : String
deriving DecidableEq

/-- Mirrors the VideoItem interface. -/
structure VideoItem where
  id : String
  snippet : VideoSnippet
  contentDetails : ContentDetails
deriving DecidableEq

/-- One page of the membership listing: the items of the page and the
optional continuation cursor.  The pageInfo.totalResults field of the
response interface is never read by the route and is omitted. -/
structure PlaylistResponse where
  items : List PlaylistItem
  nextPageToken : Option String
deriving DecidableEq

/-- Mirrors the per-video object built at route.ts lines 174-179. -/
structure VideoSummary where
  id : String
  title : String
  duration : String
  durationSeconds : Nat
deriving DecidableEq

/-- Mirrors the playlist object of the response at route.ts lines 207-211. -/
structure PlaylistInfo where
  title : String
  totalVideos : Nat
  videos : List VideoSummary
deriving DecidableEq

/-- Mirrors the result object of the response at route.ts lines 206-215. -/
structure AggregateResult where
  playlist : PlaylistInfo
  selectedVideos : List VideoSummary
  totalDuration : Nat
  averageDuration : Nat
deriving DecidableEq

/-! ## Catalog client (route.ts lines 54-108) -/

/-- Mirrors the do-while pagination loop of fetchAllPlaylistItems.  The
external service is modelled by the sequence of responses it returns to the
successive requests; the loop appends each page and continues exactly while
the returned continuation token is present. -/
def fetchAllPlaylistItems : List PlaylistResponse → List PlaylistItem
  | [] => []
  | page :: rest =>
    page.items ++
      (match page.nextPageToken with
        | some _ => fetchAllPlaylistItems rest
        | none => [])

/-- Structural worker for the batching loop: the fuel bounds the number of
iterations and is enough whenever it is at least the list length. -/
def chunk50Go : Nat → List String → List (List String)
  | _, [] => []
  | 0, _ :: _ => []
  | fuel + 1, x :: xs => ((x :: xs).take 50) :: chunk50Go fuel ((x :: xs).drop 50)

/-- Mirrors the batching loop of fetchVideoDetails: consecutive slices of at
most 50 ids, one per iteration of the for loop with step 50. -/
def chunk50 (l : List String) : List (List String) :=
  chunk50Go l.length l

lemma chunk50Go_congr : ∀ (f1 f2 : Nat) (l : List String),
    l.length ≤ f1 → l.length ≤ f2 → chunk50Go f1 l = chunk50Go f2 l := by
  intro f1
  induction f1 with
  | zero =>
    intro f2 l h1 _
    cases l with
    | nil => cases f2 <;> rfl
    | cons x xs => simp at h1
  | succ g1 ih =>
    intro f2 l h1 h2
    cases l with
    | nil => cases f2 <;> rfl
    | cons x xs =>
      cases f2 with
      | zero => simp at h2
      | succ g2 =>
        simp only [chunk50Go]
        rw [ih g2 ((x :: xs).drop 50) (by simp at h1 ⊢; omega) (by simp at h2 ⊢; omega)]

lemma chunk50_cons (x : String) (xs : List String) :
    chunk50 (x :: xs) = ((x :: xs).take 50) :: chunk50 ((x :: xs).drop 50) := by
  show chunk50Go (xs.length + 1) (x :: xs) = _
  simp only [chunk50Go, chunk50]
  rw [chunk50Go_congr xs.length ((x :: xs).drop 50).length ((x :: xs).drop 50)
    (by simp only [List.length_drop, List.length_cons]; omega) (le_refl _)]

/-- Mirrors fetchVideoDetails: issue one request per chunk and concatenate
the returned items; the second component records the issued batch requests. -/
def fetchVideoDetails (videoIds : List String) (videosSvc : List String → List VideoItem) : List VideoItem × List (List String) :=
  (((chunk50 videoIds).map videosSvc).flatten, chunk50 videoIds)

/-! ## Request handling (POST, route.ts lines 110-226) -/

/-- Outcome of the best-effort playlist-title lookup at route.ts lines
186-204: the fetch may throw, return a non-ok response, return ok with no
items, or return ok with a first item carrying a title. -/
inductive TitleOutcome where
  | fetchError
  | notOk
  | okNoItems
  | okTitle (title : String)
deriving DecidableEq

/-- Title actually used: the looked-up title when the lookup returned items,
the fixed fallback otherwise. -/
def resolveTitle : TitleOutcome → String
  | TitleOutcome.okTitle t => t
  | _ => "Unknown Playlist"

/-- Response of the route: an error status with a message, or the result
object. -/
inductive PostResponse where
  | error (status : Nat) (message : String)
  | ok (result : AggregateResult)
deriving DecidableEq

/-- JavaScript slice(a, b) for the arguments that occur in the route: both
indices are nonnegative there, so it is drop then take. -/
def jsSlice {α : Type} (l : List α) (a b : Int) : List α :=
  (l.drop a.toNat).take (b.toNat - a.toNat)

/-- Mirrors the selection block at route.ts lines 148-163: the whole list
when completePlaylist is set, otherwise the validated, clamped 1-based
inclusive slice. -/
def selectItems (completePlaylist : Bool) (startVideo endVideo : Int) (playlistItems : List PlaylistItem) : Except String (List PlaylistItem) :=
  if completePlaylist then Except.ok playlistItems
  else if startVideo < 1 ∨ endVideo < startVideo ∨ startVideo > playlistItems.length then
    Except.error ("Invalid video range")
  else
    Except.ok (jsSlice playlistItems (startVideo - 1) (min endVideo (playlistItems.length : Int)))

/-- Math.round(t / n) for natural t and positive n: the rational t/n rounded
half toward positive infinity, as floor(t/n + 1/2). -/
def mathRoundDiv (t n : Nat) : Nat := (2 * t + n) / (2 * n)

/-- Join of one selected membership entry with the fetched details, by video
id (route.ts lines 171-179): a found detail contributes its parsed duration
(with an empty duration string replaced by the zero encoding in the
displayed field), a missing one yields the zero-duration entry. -/
def joinOne (videoDetails : List VideoItem) (item : PlaylistItem) : VideoSummary :=
  match videoDetails.find? (fun v => v.id == item.snippet.resourceId.videoId) with
  | some videoDetail =>
    { id := item.snippet.resourceId.videoId
      title := item.snippet.title
      duration := if videoDetail.contentDetails.duration = "" then "PT0S" else videoDetail.contentDetails.duration
      durationSeconds := parseDuration videoDetail.contentDetails.duration }
  | none =>
    { id := item.snippet.resourceId.videoId
      title := item.snippet.title
      duration := "PT0S"
      durationSeconds := 0 }

/-- Mirrors the join at route.ts lines 170-180: for each selected item in
the original selected order, build its summary from the details list. -/
def buildSelectedVideos (selectedItems : List PlaylistItem) (videoDetails : List VideoItem) : List VideoSummary :=
  selectedItems.map (joinOne videoDetails)

/-- Mirrors the reduce at route.ts line 183. -/
def totalOf (selectedVideos : List VideoSummary) : Nat :=
  selectedVideos.foldl (fun sum video => sum + video.durationSeconds) 0

/-- Tail of the handler after a subset has been selected (route.ts lines
164-217): fetch details in batches, join, reduce, resolve the title, and
build the result object; the second component records the issued detail
batch requests. -/
def postAfterSelection (selectedItems : List PlaylistItem) (totalCount : Nat) (videosSvc : List String → List VideoItem) (titleOutcome : TitleOutcome) : PostResponse × List (List String) :=
  let fetched := fetchVideoDetails (selectedItems.map (fun item => item.snippet.resourceId.videoId)) videosSvc
  let selectedVideos := buildSelectedVideos selectedItems fetched.1
  let totalDuration := totalOf selectedVideos
  (PostResponse.ok
    { playlist := { title := resolveTitle titleOutcome, totalVideos := totalCount, videos := [] }
      selectedVideos := selectedVideos
      totalDuration := totalDuration
      averageDuration := mathRoundDiv totalDuration selectedVideos.length },
   fetched.2)

/-- Mirrors the POST handler.  Field falsiness of the parsed JSON body is
value falsiness: an empty url string, a zero startVideo or endVideo, a false
completePlaylist; the configured api key is falsy when absent or empty.  The
membership service is modelled by its successive page responses, the details
service by a per-batch response function, the title lookup by its outcome.
The second component records the detail batch requests actually issued. -/
def POST (playlistUrl : String) (startVideo endVideo : Int) (completePlaylist : Bool) (apiKey : Option String) (pages : List PlaylistResponse) (videosSvc : List String → List VideoItem) (titleOutcome : TitleOutcome) : PostResponse × List (List String) :=
  if playlistUrl = "" ∨ (completePlaylist = false ∧ (startVideo = 0 ∨ endVideo = 0)) then
    (PostResponse.error 400 ("Missing required fields"), [])
  else if apiKey = none ∨ apiKey = some ("") then
    (PostResponse.error 500 ("YouTube API key not configured"), [])
  else if extractPlaylistId playlistUrl = none then
    (PostResponse.error 400 ("Invalid YouTube playlist URL"), [])
  else if (fetchAllPlaylistItems pages).length = 0 then
    (PostResponse.error 404 ("Playlist is empty or not found"), [])
  else
    match selectItems completePlaylist startVideo endVideo (fetchAllPlaylistItems pages) with
    | Except.error msg => (PostResponse.error 400 msg, [])
    | Except.ok selected =>
      postAfterSelection selected (fetchAllPlaylistItems pages).length videosSvc titleOutcome

/-! ## Decimal digit strings, for the duration round-trip property -/

/-- Character of one decimal digit. -/
def digitChar (d : Nat) : Char :=
  [ '0', '1', '2', '3', '4', '5', '6', '7', '8', '9'].getD d '0'

/-- Decimal digit string of a natural number, most significant digit
first. -/
def natDigits (n : Nat) : List Char :=
  if _h : n < 10 then [digitChar n] else natDigits (n / 10) ++ [digitChar (n % 10)]
termination_by n
decreasing_by exact Nat.div_lt_self (by omega) (by omega)

lemma digitChar_isDigit (d : Nat) (h : d < 10) : (digitChar d).isDigit = true := by
  interval_cases d <;> decide

lemma digitChar_toNat (d : Nat) (h : d < 10) : (digitChar d).toNat = d + 48 := by
  interval_cases d <;> decide

lemma natDigits_ne_nil (n : Nat) : natDigits n ≠ [] := by
  unfold natDigits
  split <;> simp

lemma natDigits_digits (n : Nat) : ∀ c ∈ natDigits n, c.isDigit = true := by
  induction n using Nat.strong_induction_on with
  | _ n ih =>
    intro c hc
    unfold natDigits at hc
    by_cases h : n < 10
    · simp [h] at hc
      exact hc ▸ digitChar_isDigit n h
    · simp [h] at hc
      rcases hc with hc | hc
      · exact ih (n / 10) (Nat.div_lt_self (by omega) (by omega)) c hc
      · exact hc ▸ digitChar_isDigit (n % 10) (Nat.mod_lt n (by omega))

lemma natOfDigits_append_digit (a : List Char) (c : Char) :
    natOfDigits (a ++ [c]) = natOfDigits a * 10 + (c.toNat - 48) := by
  simp [natOfDigits, List.foldl_append]

lemma natOfDigits_natDigits (n : Nat) : natOfDigits (natDigits n) = n := by
  induction n using Nat.strong_induction_on with
  | _ n ih =>
    unfold natDigits
    by_cases h : n < 10
    · simp [h, natOfDigits, digitChar_toNat n h]
    · rw [dif_neg h, natOfDigits_append_digit,
        ih (n / 10) (Nat.div_lt_self (by omega) (by omega)),
        digitChar_toNat (n % 10) (Nat.mod_lt n (by omega))]
      omega

/-! ## Behaviour of the optional duration components -/

lemma takeWhile_append_all {p : Char → Bool} (w l : List Char)
    (hw : ∀ c ∈ w, p c = true) :
    (w ++ l).takeWhile p = w ++ l.takeWhile p := by
  induction w with
  | nil => simp
  | cons c w ih =>
    simp only [List.cons_append, List.takeWhile_cons, hw c (by simp), if_true]
    rw [ih (fun d hd => hw d (by simp [hd]))]

lemma takeWhile_neg_head {p : Char → Bool} (c : Char) (l : List Char)
    (hc : p c = false) :
    (c :: l).takeWhile p = [] := by
  simp [List.takeWhile_cons, hc]

lemma matchUnit_hit (u : Char) (hu : Char.isDigit u = false) (n : Nat) (rest : List Char) :
    matchUnit u (natDigits n ++ u :: rest) = some (n, rest) := by
  have h1 : (natDigits n ++ u :: rest).takeWhile Char.isDigit = natDigits n := by
    rw [takeWhile_append_all _ _ (natDigits_digits n), takeWhile_neg_head u rest hu,
      List.append_nil]
  unfold matchUnit
  rw [h1, if_neg (by simp [natDigits_ne_nil n]), List.drop_left]
  simp [natOfDigits_natDigits n]

/-- Shape of a tail on which an optional component cannot match: either no
leading digit at all, or a digit run followed by the wrong unit letter. -/
def missShape (u : Char) (X : List Char) : Prop :=
  X.takeWhile Char.isDigit = [] ∨
    ∃ k u2 rest, u2 ≠ u ∧ Char.isDigit u2 = false ∧ X = natDigits k ++ u2 :: rest

lemma matchUnit_miss (u : Char) (X : List Char) (hX : missShape u X) :
    matchUnit u X = none := by
  rcases hX with h | ⟨k, u2, rest, hne, hu2, rfl⟩
  · unfold matchUnit
    rw [h]
    simp
  · have h1 : (natDigits k ++ u2 :: rest).takeWhile Char.isDigit = natDigits k := by
      rw [takeWhile_append_all _ _ (natDigits_digits k), takeWhile_neg_head u2 rest hu2,
        List.append_nil]
    unfold matchUnit
    rw [h1, if_neg (by simp [natDigits_ne_nil k]), List.drop_left]
    simp [hne]

lemma component_hit (u : Char) (hu : Char.isDigit u = false) (n : Nat) (rest : List Char) :
    component u (natDigits n ++ u :: rest) = (n, rest) := by
  simp [component, matchUnit_hit u hu n rest]

lemma component_miss (u : Char) (X : List Char) (hX : missShape u X) :
    component u X = (0, X) := by
  simp [component, matchUnit_miss u X hX]

/-- One optional component of the compact encoding: absent when its value is
zero. -/
def partIf (n : Nat) (u : Char) (rest : List Char) : List Char :=
  if n = 0 then rest else natDigits n ++ u :: rest

/-- Modelled from the spec: the source program has no duration encoder (the
spec reserves formatting to the presentation layer), but the round-trip
property in the spec needs one.  It emits the period designator and then only
the present components, a component being present exactly when nonzero. -/
def formatDuration (hrs mins secs : Nat) : String :=
  String.mk ('P' :: 'T' :: partIf hrs 'H' (partIf mins 'M' (partIf secs 'S' [])))

lemma missShape_nil (u : Char) : missShape u [] := Or.inl rfl

lemma missShape_partIf (u u2 : Char) (h1 : u2 ≠ u) (h2 : Char.isDigit u2 = false)
    (n : Nat) (rest : List Char) (hrest : missShape u rest) :
    missShape u (partIf n u2 rest) := by
  unfold partIf
  split
  · exact hrest
  · exact Or.inr ⟨n, u2, rest, h1, h2, rfl⟩

lemma component_partIf (u : Char) (hu : Char.isDigit u = false) (n : Nat)
    (X : List Char) (hX : missShape u X) :
    component u (partIf n u X) = (n, X) := by
  unfold partIf
  split
  · next h => rw [component_miss u X hX, h]
  · exact component_hit u hu n X

lemma parse_format (hrs mins secs : Nat) :
    parseDuration (formatDuration hrs mins secs) = hrs * 3600 + mins * 60 + secs := by
  have hX2 : missShape 'S' ([] : List Char) := missShape_nil 'S'
  have hX1 : missShape 'M' (partIf secs 'S' []) :=
    missShape_partIf 'M' 'S' (by decide) (by decide) secs [] (missShape_nil 'M')
  have hX0 : missShape 'H' (partIf mins 'M' (partIf secs 'S' [])) :=
    missShape_partIf 'H' 'M' (by decide) (by decide) mins _
      (missShape_partIf 'H' 'S' (by decide) (by decide) secs [] (missShape_nil 'H'))
  have hfind : findPT (formatDuration hrs mins secs).data =
      some (partIf hrs 'H' (partIf mins 'M' (partIf secs 'S' []))) := rfl
  rw [parseDuration, hfind]
  dsimp only
  rw [component_partIf 'H' (by decide) hrs _ hX0]
  dsimp only
  rw [component_partIf 'M' (by decide) mins _ hX1]
  dsimp only
  rw [component_partIf 'S' (by decide) secs _ hX2]

/-! ## Claim C3: Duration Codec correctness -/

/-- C3.  Duration Codec correctness: the concrete decodings of the spec, the
lenient decoding of any string in which the period-designator literal never
occurs (such a string cannot match the compact time-span shape) to 0 rather
than a failure, and the round-trip property decode(format(h, m, s)) =
h*3600 + m*60 + s for the spec-modelled encoder that emits only present
components. -/
theorem duration_codec_c3 :
    parseDuration ("PT1H2M3S") = 3723 ∧
    parseDuration ("PT45S") = 45 ∧
    parseDuration ("PT2H") = 7200 ∧
    parseDuration ("") = 0 ∧
    parseDuration ("hello") = 0 ∧
    parseDuration ("12:34") = 0 ∧
    (∀ s : String, findPT s.data = none → parseDuration s = 0) ∧
    (∀ hrs mins secs : Nat,
      parseDuration (formatDuration hrs mins secs) = hrs * 3600 + mins * 60 + secs) := by
  refine ⟨by decide, by decide, by decide, by decide, by decide, by decide, ?_, parse_format⟩
  intro s hs
  rw [parseDuration, hs]

/-- Concrete instantiation of the quantified parts of C3. -/
theorem duration_codec_c3_witness :
    parseDuration (String.mk ['x', 'y', 'z']) = 0 ∧
    parseDuration (formatDuration 4 0 5) = 4 * 3600 + 0 * 60 + 5 :=
  ⟨duration_codec_c3.2.2.2.2.2.2.1 (String.mk ['x', 'y', 'z']) (by decide),
   duration_codec_c3.2.2.2.2.2.2.2 4 0 5⟩

/-! ## Claim C6: batch ceiling of the details lookup -/

lemma chunk50_flatten_aux : ∀ (n : Nat) (l : List String), l.length ≤ n →
    (chunk50 l).flatten = l := by
  intro n
  induction n with
  | zero =>
    intro l h
    cases l with
    | nil => rfl
    | cons x xs => simp at h
  | succ n ih =>
    intro l h
    cases l with
    | nil => rfl
    | cons x xs =>
      rw [chunk50_cons, List.flatten_cons,
        ih ((x :: xs).drop 50) (by simp at h ⊢; omega), List.take_append_drop]

lemma chunk50_flatten (l : List String) : (chunk50 l).flatten = l :=
  chunk50_flatten_aux l.length l (le_refl _)

lemma chunk50_le_50_aux : ∀ (n : Nat) (l : List String), l.length ≤ n →
    ∀ c ∈ chunk50 l, c.length ≤ 50 := by
  intro n
  induction n with
  | zero =>
    intro l h c hc
    cases l with
    | nil => simp [chunk50, chunk50Go] at hc
    | cons x xs => simp at h
  | succ n ih =>
    intro l h c hc
    cases l with
    | nil => simp [chunk50, chunk50Go] at hc
    | cons x xs =>
      rw [chunk50_cons] at hc
      rcases List.mem_cons.mp hc with h2 | h2
      · subst h2
        simp [List.length_take]
      · exact ih ((x :: xs).drop 50) (by simp at h ⊢; omega) c h2

lemma chunk50_le_50 (l : List String) : ∀ c ∈ chunk50 l, c.length ≤ 50 :=
  chunk50_le_50_aux l.length l (le_refl _)

lemma chunk50_count_aux : ∀ (n : Nat) (l : List String), l.length ≤ n →
    (chunk50 l).length = (l.length + 49) / 50 := by
  intro n
  induction n with
  | zero =>
    intro l h
    cases l with
    | nil => rfl
    | cons x xs => simp at h
  | succ n ih =>
    intro l h
    cases l with
    | nil => rfl
    | cons x xs =>
      rw [chunk50_cons, List.length_cons, ih ((x :: xs).drop 50) (by simp at h ⊢; omega)]
      simp only [List.length_drop, List.length_cons]
      omega

lemma chunk50_count (l : List String) : (chunk50 l).length = (l.length + 49) / 50 :=
  chunk50_count_aux l.length l (le_refl _)

/-- The 120 requested ids of the spec example. -/
def ids120 : List String := (List.range 120).map (fun n => toString n)

/-- C6.  Batch-ceiling correctness of fetchVideoDetails: the issued batch
requests are the consecutive chunks of at most 50 ids, there are exactly
ceil(n/50) of them for n input ids, their concatenation is exactly the input
id sequence (so every id occurs exactly as often as in the input, with no
omission or duplication), and 120 ids are split into 3 calls of 50, 50 and
20. -/
theorem batch_ceiling_c6 :
    (∀ ids : List String, ∀ svc : List String → List VideoItem,
      (fetchVideoDetails ids svc).2 = chunk50 ids) ∧
    (∀ ids : List String, (chunk50 ids).flatten = ids) ∧
    (∀ ids : List String, ∀ c ∈ chunk50 ids, c.length ≤ 50) ∧
    (∀ ids : List String, (chunk50 ids).length = (ids.length + 49) / 50) ∧
    (chunk50 ids120).map List.length = [50, 50, 20] ∧
    (chunk50 ids120).flatten = ids120 := by
  refine ⟨fun ids svc => rfl, chunk50_flatten, chunk50_le_50, chunk50_count, by decide,
    chunk50_flatten ids120⟩

/-- Concrete instantiation of the quantified parts of C6. -/
theorem batch_ceiling_c6_witness :
    ([("a"), ("b")] : List String).length ≤ 50 ∧
    (chunk50 ids120).length = (ids120.length + 49) / 50 :=
  ⟨batch_ceiling_c6.2.2.1 ([("a"), ("b")]) ([("a"), ("b")]) (by decide),
   batch_ceiling_c6.2.2.2.1 ids120⟩

/-! ## Claim C5: pagination of the membership listing -/

lemma fetchAll_flatten (pages : List PlaylistResponse)
    (hc : ∀ p ∈ pages.dropLast, p.nextPageToken.isSome = true) :
    fetchAllPlaylistItems pages = (pages.map PlaylistResponse.items).flatten := by
  induction pages with
  | nil => rfl
  | cons p rest ih =>
    cases rest with
    | nil =>
      cases ht : p.nextPageToken <;> simp [fetchAllPlaylistItems, ht]
    | cons q rest2 =>
      have hp : p.nextPageToken.isSome = true := hc p (by simp)
      cases ht : p.nextPageToken with
      | none => rw [ht] at hp; simp at hp
      | some t =>
        have ih2 : fetchAllPlaylistItems (q :: rest2) =
            (List.map PlaylistResponse.items (q :: rest2)).flatten :=
          ih (fun r hr => hc r (by
            rw [List.dropLast_cons₂]
            exact List.mem_cons_of_mem p hr))
        have hstep : fetchAllPlaylistItems (p :: q :: rest2) =
            p.items ++ fetchAllPlaylistItems (q :: rest2) := by
          rw [fetchAllPlaylistItems, ht]
        rw [hstep, ih2]
        simp

/-- Fixed page size requested from the membership listing, mirroring the
maxResults parameter set at route.ts line 62. -/
def maxResultsPerPage : Nat := 50

/-- Sample item used by the concrete pagination and batching scenarios. -/
def item120 (n : Nat) : PlaylistItem := ⟨⟨toString n, ⟨toString n⟩⟩⟩

/-- The 120-entry membership of the spec example. -/
def master120 : List PlaylistItem := (List.range 120).map item120

/-- The 120 entries delivered as three pages of 50, 50 and 20, the first two
carrying a continuation cursor. -/
def pages120 : List PlaylistResponse :=
  [⟨master120.take 50, some ("page2")⟩,
   ⟨(master120.drop 50).take 50, some ("page3")⟩,
   ⟨master120.drop 100, none⟩]

/-- C5.  Pagination correctness of fetchAllPlaylistItems: whenever every page
before the last carries a continuation cursor, the result is the
concatenation of the pages in order (page order and in-page order preserved,
nothing duplicated or lost); each page request is capped at the fixed page
size 50; and the 120-item membership delivered as pages of 50, 50 and 20
yields exactly the 120 entries in order. -/
theorem pagination_c5 :
    (∀ pages : List PlaylistResponse,
      (∀ p ∈ pages.dropLast, p.nextPageToken.isSome = true) →
      fetchAllPlaylistItems pages = (pages.map PlaylistResponse.items).flatten) ∧
    maxResultsPerPage = 50 ∧
    fetchAllPlaylistItems pages120 = master120 ∧
    master120.length = 120 := by
  refine ⟨fetchAll_flatten, rfl, ?_, by simp [master120]⟩
  have h1 : master120.drop 100 = (master120.drop 50).drop 50 := by
    rw [List.drop_drop]
  simp only [pages120, fetchAllPlaylistItems, List.append_nil, h1,
    List.take_append_drop]

/-- Concrete instantiation of the quantified part of C5. -/
theorem pagination_c5_witness :
    fetchAllPlaylistItems
        [⟨[item120 0], some ("t")⟩, ⟨[item120 1], none⟩] =
      (([⟨[item120 0], some ("t")⟩, ⟨[item120 1], none⟩] :
          List PlaylistResponse).map PlaylistResponse.items).flatten :=
  pagination_c5.1 [⟨[item120 0], some ("t")⟩, ⟨[item120 1], none⟩] (by decide)

/-! ## Claim C1: selection resolution -/

/-- C1.  Selection resolution: the entire-playlist spec selects the whole
membership; a validated explicit range (1 ≤ start ≤ end, start ≤ N) selects
exactly the contiguous 1-based inclusive slice from start to min(end, N),
whose length is min(end, N) - start + 1, an end past N being clamped rather
than rejected; and the explicit range start = 1, end = N selects the same
subset as the entire-playlist spec. -/
theorem selection_resolution_c1 (items : List PlaylistItem) (start fin : Nat)
    (h1 : 1 ≤ start) (h2 : start ≤ fin) (h3 : start ≤ items.length) :
    (∀ s e : Int, selectItems true s e items = Except.ok items) ∧
    selectItems false (start : Int) (fin : Int) items =
      Except.ok ((items.drop (start - 1)).take (min fin items.length - (start - 1))) ∧
    ((items.drop (start - 1)).take (min fin items.length - (start - 1))).length =
      min fin items.length - start + 1 ∧
    selectItems false 1 (items.length : Int) items = Except.ok items := by
  refine ⟨fun s e => by simp [selectItems], ?_, ?_, ?_⟩
  · have hcond : ¬((start : Int) < 1 ∨ (fin : Int) < (start : Int) ∨
        (start : Int) > (items.length : Int)) := by omega
    have e1 : ((start : Int) - 1).toNat = start - 1 := by omega
    have e2 : (min (fin : Int) (items.length : Int)).toNat = min fin items.length := by
      omega
    simp only [selectItems, Bool.false_eq_true, if_false, hcond, if_neg,
      not_false_iff, jsSlice, e1, e2]
  · simp only [List.length_take, List.length_drop]
    omega
  · have hN : 1 ≤ items.length := le_trans h1 h3
    have hcond : ¬((1 : Int) < 1 ∨ (items.length : Int) < (1 : Int) ∨
        (1 : Int) > (items.length : Int)) := by omega
    have e1 : ((1 : Int) - 1).toNat = 0 := by omega
    have e2 : (min (items.length : Int) (items.length : Int)).toNat = items.length := by
      omega
    simp only [selectItems, Bool.false_eq_true, if_false, hcond, if_neg,
      not_false_iff, jsSlice, e1, e2, List.drop_zero, Nat.sub_zero, List.take_length]

/-- Sample membership entry constructor. -/
def mkItem (id t : String) : PlaylistItem := ⟨⟨t, ⟨id⟩⟩⟩

/-- Three-entry sample membership. -/
def sampleItems3 : List PlaylistItem :=
  [mkItem ("aaa") ("Alpha"), mkItem ("bbb") ("Beta"), mkItem ("ccc") ("Gamma")]

/-- Concrete instantiation of C1 at membership length 3 with range 1..2. -/
theorem selection_resolution_c1_witness :
    (∀ s e : Int, selectItems true s e sampleItems3 = Except.ok sampleItems3) ∧
    selectItems false ((1 : Nat) : Int) ((2 : Nat) : Int) sampleItems3 =
      Except.ok ((sampleItems3.drop (1 - 1)).take (min 2 sampleItems3.length - (1 - 1))) ∧
    ((sampleItems3.drop (1 - 1)).take (min 2 sampleItems3.length - (1 - 1))).length =
      min 2 sampleItems3.length - 1 + 1 ∧
    selectItems false 1 (sampleItems3.length : Int) sampleItems3 =
      Except.ok sampleItems3 :=
  selection_resolution_c1 sampleItems3 1 2 (by decide) (by decide) (by decide)

/-! ## Claim C9: playlist identifier extraction -/

/-- Query-parameter token shared by both recognized host patterns. -/
def listToken : List Char := String.data ("list=")

lemma dropPref_eq_some : ∀ (p l r : List Char), dropPref p l = some r → l = p ++ r := by
  intro p
  induction p with
  | nil =>
    intro l r h
    simp only [dropPref, Option.some.injEq] at h
    simp [h]
  | cons c p ih =>
    intro l r h
    cases l with
    | nil => cases h
    | cons d l =>
      simp only [dropPref] at h
      by_cases hcd : c = d
      · rw [if_pos hcd] at h
        rw [List.cons_append, ← ih l r h, hcd]
      · rw [if_neg hcd] at h
        cases h

lemma dropPref_self : ∀ (p l : List Char), dropPref p (p ++ l) = some l := by
  intro p
  induction p with
  | nil => intro l; rfl
  | cons c p ih => intro l; simp [dropPref, ih]

lemma dropPref_y1_y2 (l : List Char) : dropPref youtubePat (youtuBePat ++ l) = none := rfl

lemma youtubePat_split : youtubePat = String.data ("youtube.com/playlist?") ++ listToken := rfl

lemma youtuBePat_split : youtuBePat = String.data ("youtu.be/playlist?") ++ listToken := rfl

/-- Does the literal list token occur anywhere in the string? -/
def hasListToken : List Char → Bool
  | [] => false
  | c :: cs =>
    match dropPref listToken (c :: cs) with
    | some _ => true
    | none => hasListToken cs

lemma hasListToken_here (l r : List Char) (h : dropPref listToken l = some r) :
    hasListToken l = true := by
  cases l with
  | nil => cases h
  | cons c cs =>
    simp only [hasListToken]
    rw [h]

lemma hasListToken_append_right (x l : List Char) (h : hasListToken l = true) :
    hasListToken (x ++ l) = true := by
  induction x with
  | nil => simpa
  | cons c x ih =>
    rw [List.cons_append]
    simp only [hasListToken]
    cases hd : dropPref listToken (c :: (x ++ l)) with
    | some r => rfl
    | none => exact ih

lemma extractAt_some_token (l w : List Char) (h : extractAt l = some w) :
    hasListToken l = true := by
  unfold extractAt at h
  cases horelse : dropPref youtubePat l <|> dropPref youtuBePat l with
  | none => rw [horelse] at h; cases h
  | some rest =>
    have halt : dropPref youtubePat l = some rest ∨ dropPref youtuBePat l = some rest := by
      cases h1 : dropPref youtubePat l with
      | some r =>
        left
        rw [h1] at horelse
        simpa using horelse
      | none =>
        right
        rw [h1] at horelse
        simpa using horelse
    rcases halt with h1 | h1
    · rw [dropPref_eq_some _ _ _ h1, youtubePat_split, List.append_assoc]
      exact hasListToken_append_right _ _
        (hasListToken_here _ _ (dropPref_self listToken rest))
    · rw [dropPref_eq_some _ _ _ h1, youtuBePat_split, List.append_assoc]
      exact hasListToken_append_right _ _
        (hasListToken_here _ _ (dropPref_self listToken rest))

lemma extractScan_some_token : ∀ (l w : List Char), extractScan l = some w →
    hasListToken l = true := by
  intro l
  induction l with
  | nil => intro w h; cases h
  | cons c cs ih =>
    intro w h
    rw [extractScan] at h
    cases he : extractAt (c :: cs) with
    | some r => exact extractAt_some_token _ _ he
    | none =>
      rw [he] at h
      simp only [hasListToken]
      cases hd : dropPref listToken (c :: cs) with
      | some r => rfl
      | none => exact ih w h

lemma mem_takeWhile_pred {p : Char → Bool} : ∀ (l : List Char), ∀ c ∈ l.takeWhile p,
    p c = true := by
  intro l
  induction l with
  | nil => simp
  | cons a l ih =>
    intro c hc
    rw [List.takeWhile_cons] at hc
    by_cases ha : p a = true
    · rw [if_pos ha] at hc
      rcases List.mem_cons.mp hc with h | h
      · exact h ▸ ha
      · exact ih c h
    · rw [if_neg ha] at hc
      cases hc

lemma extractAt_chars (l w : List Char) (h : extractAt l = some w) :
    w ≠ [] ∧ ∀ c ∈ w, isIdChar c = true := by
  unfold extractAt at h
  cases horelse : dropPref youtubePat l <|> dropPref youtuBePat l with
  | none => rw [horelse] at h; cases h
  | some rest =>
    rw [horelse] at h
    simp only [Option.some_bind] at h
    cases htk : rest.takeWhile isIdChar with
    | nil => rw [htk] at h; cases h
    | cons a as =>
      rw [htk] at h
      injection h with h
      subst h
      refine ⟨by simp, fun c hc => mem_takeWhile_pred rest c (htk ▸ hc)⟩

lemma extractScan_chars : ∀ (l w : List Char), extractScan l = some w →
    w ≠ [] ∧ ∀ c ∈ w, isIdChar c = true := by
  intro l
  induction l with
  | nil => intro w h; cases h
  | cons c cs ih =>
    intro w h
    rw [extractScan] at h
    cases he : extractAt (c :: cs) with
    | some r =>
      rw [he] at h
      injection h with h
      exact h ▸ extractAt_chars _ _ he
    | none =>
      rw [he] at h
      exact ih w h

lemma extractAt_boundary (pat w suf : List Char)
    (hpat : pat = youtubePat ∨ pat = youtuBePat) (hw : w ≠ [])
    (hwc : ∀ c ∈ w, isIdChar c = true)
    (hsuf : ∀ c, suf.head? = some c → isIdChar c = false) :
    extractAt (pat ++ (w ++ suf)) = some w := by
  have htw : (w ++ suf).takeWhile isIdChar = w := by
    rw [takeWhile_append_all _ _ hwc]
    have : suf.takeWhile isIdChar = [] := by
      cases suf with
      | nil => rfl
      | cons a l => exact takeWhile_neg_head a l (hsuf a rfl)
    rw [this, List.append_nil]
  rcases hpat with rfl | rfl
  · unfold extractAt
    rw [dropPref_self]
    simp only [Option.some_orElse, Option.some_bind]
    rw [htw]
    cases w with
    | nil => exact absurd rfl hw
    | cons a as => rfl
  · unfold extractAt
    rw [dropPref_y1_y2]
    simp only [Option.none_orElse]
    rw [dropPref_self]
    simp only [Option.some_bind]
    rw [htw]
    cases w with
    | nil => exact absurd rfl hw
    | cons a as => rfl

lemma scan_skip : ∀ (pre rest : List Char),
    (∀ i, i < pre.length → extractAt (pre.drop i ++ rest) = none) →
    extractScan (pre ++ rest) = extractScan rest := by
  intro pre
  induction pre with
  | nil => intro rest _; rfl
  | cons c pre ih =>
    intro rest hpre
    have h0 : extractAt (c :: (pre ++ rest)) = none := by
      have := hpre 0 (by simp)
      simpa using this
    rw [List.cons_append, extractScan, h0]
    exact ih rest (fun i hi => by
      have := hpre (i + 1) (by simpa using Nat.succ_lt_succ hi)
      simpa using this)

lemma scan_here (l w : List Char) (hl : extractAt l = some w) :
    extractScan l = some w := by
  cases l with
  | nil => cases hl
  | cons c cs => rw [extractScan, hl]

lemma orElse_some_cases (a b : Option (List Char)) (r : List Char)
    (h : (a <|> b) = some r) : a = some r ∨ b = some r := by
  cases a with
  | none =>
    right
    simpa using h
  | some x =>
    left
    simpa using h

lemma extractAt_decomp (l w : List Char) (h : extractAt l = some w) :
    ∃ pat suf, (pat = youtubePat ∨ pat = youtuBePat) ∧ l = pat ++ (w ++ suf) := by
  unfold extractAt at h
  cases horelse : dropPref youtubePat l <|> dropPref youtuBePat l with
  | none => rw [horelse] at h; cases h
  | some rest =>
    rw [horelse] at h
    simp only [Option.some_bind] at h
    have hw : rest.takeWhile isIdChar = w := by
      cases htk : rest.takeWhile isIdChar with
      | nil => rw [htk] at h; cases h
      | cons a as =>
        rw [htk] at h
        injection h
    have hsplit : rest = w ++ rest.dropWhile isIdChar := by
      rw [← hw, List.takeWhile_append_dropWhile]
    rcases orElse_some_cases _ _ _ horelse with h1 | h1
    · exact ⟨youtubePat, rest.dropWhile isIdChar, Or.inl rfl,
        by rw [dropPref_eq_some _ _ _ h1, ← hsplit]⟩
    · exact ⟨youtuBePat, rest.dropWhile isIdChar, Or.inr rfl,
        by rw [dropPref_eq_some _ _ _ h1, ← hsplit]⟩

lemma extractScan_decomp : ∀ (l w : List Char), extractScan l = some w →
    ∃ pre pat suf, (pat = youtubePat ∨ pat = youtuBePat) ∧
      l = pre ++ (pat ++ (w ++ suf)) := by
  intro l
  induction l with
  | nil => intro w h; cases h
  | cons c cs ih =>
    intro w h
    rw [extractScan] at h
    cases he : extractAt (c :: cs) with
    | some r =>
      rw [he] at h
      injection h with h
      obtain ⟨pat, suf, hpat, hl⟩ := extractAt_decomp _ _ (h ▸ he)
      exact ⟨[], pat, suf, hpat, by simpa using hl⟩
    | none =>
      rw [he] at h
      obtain ⟨pre, pat, suf, hpat, hl⟩ := ih w h
      exact ⟨c :: pre, pat, suf, hpat, by rw [List.cons_append, ← hl]⟩

/-- C9.  Identifier extraction: a URL in which the list token never occurs is
rejected; any extracted identifier is a nonempty string over the capture
character class; an identifier is extracted only from a URL that really
contains one of the two recognized host patterns immediately followed by the
captured identifier (so a URL lacking such a recognizable token is answered
with not-found); and a URL consisting of an arbitrary prefix on which the
regex does not match, one of the two recognized host patterns, a nonempty run
of id characters and a suffix starting with a non-id character yields exactly
that run as the captured identifier. -/
theorem extractor_c9 :
    (∀ url : String, hasListToken url.data = false → extractPlaylistId url = none) ∧
    (∀ url : String, ∀ id : String, extractPlaylistId url = some id →
      id.data ≠ [] ∧ ∀ c ∈ id.data, isIdChar c = true) ∧
    (∀ url : String, ∀ id : String, extractPlaylistId url = some id →
      ∃ pre pat suf, (pat = youtubePat ∨ pat = youtuBePat) ∧
        url.data = pre ++ (pat ++ (id.data ++ suf))) ∧
    (∀ (url : String) (pre pat w suf : List Char),
      (pat = youtubePat ∨ pat = youtuBePat) →
      url.data = pre ++ (pat ++ (w ++ suf)) →
      w ≠ [] →
      (∀ c ∈ w, isIdChar c = true) →
      (∀ c, suf.head? = some c → isIdChar c = false) →
      (∀ i, i < pre.length → extractAt (pre.drop i ++ (pat ++ (w ++ suf))) = none) →
      extractPlaylistId url = some (String.mk w)) := by
  refine ⟨?_, ?_, ?_, ?_⟩
  · intro url h
    unfold extractPlaylistId
    cases hs : extractScan url.data with
    | none => rfl
    | some w =>
      have := extractScan_some_token _ _ hs
      rw [h] at this
      cases this
  · intro url id h
    unfold extractPlaylistId at h
    cases hs : extractScan url.data with
    | none => rw [hs] at h; cases h
    | some w =>
      rw [hs] at h
      injection h with h
      have hch := extractScan_chars _ _ hs
      rw [← h]
      exact hch
  · intro url id h
    unfold extractPlaylistId at h
    cases hs : extractScan url.data with
    | none => rw [hs] at h; cases h
    | some w =>
      rw [hs] at h
      injection h with h
      rw [← h]
      exact extractScan_decomp _ _ hs
  · intro url pre pat w suf hpat hdata hw hwc hsuf hpre
    unfold extractPlaylistId
    rw [hdata, scan_skip pre _ hpre,
      scan_here _ w (extractAt_boundary pat w suf hpat hw hwc hsuf)]
    rfl

/-- Concrete instantiations of C9: a URL with no list token is rejected, and
a standard playlist URL yields its captured identifier. -/
theorem extractor_c9_witness :
    extractPlaylistId ("https://example.com/watch?v=abc") = none ∧
    extractPlaylistId ("https://www.youtube.com/playlist?list=PLabc123_-x") =
      some (String.mk (String.data ("PLabc123_-x"))) :=
  ⟨extractor_c9.1 ("https://example.com/watch?v=abc") (by decide),
   extractor_c9.2.2.2 ("https://www.youtube.com/playlist?list=PLabc123_-x")
     (String.data ("https://www.")) youtubePat (String.data ("PLabc123_-x")) []
     (Or.inl rfl) (by decide) (by decide) (by decide)
     (fun c hc => Option.noConfusion hc) (by decide)⟩

/-! ## Claim C7: join and output ordering -/

lemma joinOne_none (videoDetails : List VideoItem) (item : PlaylistItem)
    (h : videoDetails.find? (fun v => v.id == item.snippet.resourceId.videoId) = none) :
    joinOne videoDetails item =
      { id := item.snippet.resourceId.videoId
        title := item.snippet.title
        duration := "PT0S"
        durationSeconds := 0 } := by
  simp [joinOne, h]

lemma joinOne_some (videoDetails : List VideoItem) (item : PlaylistItem) (v : VideoItem)
    (h : videoDetails.find? (fun v2 => v2.id == item.snippet.resourceId.videoId) = some v) :
    joinOne videoDetails item =
      { id := item.snippet.resourceId.videoId
        title := item.snippet.title
        duration := if v.contentDetails.duration = "" then "PT0S" else v.contentDetails.duration
        durationSeconds := parseDuration v.contentDetails.duration } := by
  simp [joinOne, h]

lemma buildSelectedVideos_get (selectedItems : List PlaylistItem)
    (videoDetails : List VideoItem) (i : Nat)
    (h1 : i < (buildSelectedVideos selectedItems videoDetails).length)
    (h2 : i < selectedItems.length) :
    (buildSelectedVideos selectedItems videoDetails).get ⟨i, h1⟩ =
      joinOne videoDetails (selectedItems.get ⟨i, h2⟩) := by
  simp [buildSelectedVideos, List.get_eq_getElem, List.getElem_map]

/-- C7.  Join and output ordering: the summaries are in bijection with the
selected membership entries in their original order (same id and title at
every index, independent of the order of the metadata list), the metadata of
an entry is the result of the by-id lookup in the fetched details, a missing
metadata entry yields duration 0 with the zero-duration encoding and no
failure, and a found one yields its decoded duration. -/
theorem join_ordering_c7 (selectedItems : List PlaylistItem) (videoDetails : List VideoItem) :
    (buildSelectedVideos selectedItems videoDetails).length = selectedItems.length ∧
    (∀ i (h1 : i < (buildSelectedVideos selectedItems videoDetails).length)
       (h2 : i < selectedItems.length),
      ((buildSelectedVideos selectedItems videoDetails).get ⟨i, h1⟩).id =
        (selectedItems.get ⟨i, h2⟩).snippet.resourceId.videoId ∧
      ((buildSelectedVideos selectedItems videoDetails).get ⟨i, h1⟩).title =
        (selectedItems.get ⟨i, h2⟩).snippet.title ∧
      (videoDetails.find?
          (fun v => v.id == (selectedItems.get ⟨i, h2⟩).snippet.resourceId.videoId) = none →
        ((buildSelectedVideos selectedItems videoDetails).get ⟨i, h1⟩).durationSeconds = 0 ∧
        ((buildSelectedVideos selectedItems videoDetails).get ⟨i, h1⟩).duration = "PT0S") ∧
      (∀ v, videoDetails.find?
          (fun v2 => v2.id == (selectedItems.get ⟨i, h2⟩).snippet.resourceId.videoId) = some v →
        ((buildSelectedVideos selectedItems videoDetails).get ⟨i, h1⟩).durationSeconds =
          parseDuration v.contentDetails.duration)) := by
  refine ⟨by simp [buildSelectedVideos], ?_⟩
  intro i h1 h2
  rw [buildSelectedVideos_get selectedItems videoDetails i h1 h2]
  refine ⟨?_, ?_, ?_, ?_⟩
  · cases hf : videoDetails.find?
        (fun v => v.id == (selectedItems.get ⟨i, h2⟩).snippet.resourceId.videoId) with
    | none => rw [joinOne_none _ _ hf]
    | some v => rw [joinOne_some _ _ v hf]
  · cases hf : videoDetails.find?
        (fun v => v.id == (selectedItems.get ⟨i, h2⟩).snippet.resourceId.videoId) with
    | none => rw [joinOne_none _ _ hf]
    | some v => rw [joinOne_some _ _ v hf]
  · intro hf
    rw [joinOne_none _ _ hf]
    exact ⟨rfl, rfl⟩
  · intro v hf
    rw [joinOne_some _ _ v hf]

/-- Sample metadata entry constructor. -/
def vid (id dur : String) : VideoItem := ⟨id, ⟨id⟩, ⟨dur⟩⟩

/-- Concrete instantiation of C7: two selected entries, metadata delivered in
reverse order and missing for the second entry. -/
theorem join_ordering_c7_witness :
    (buildSelectedVideos [mkItem ("aaa") ("Alpha"), mkItem ("bbb") ("Beta")]
        [vid ("zzz") ("PT9S"), vid ("aaa") ("PT2M")]).length =
      ([mkItem ("aaa") ("Alpha"), mkItem ("bbb") ("Beta")] : List PlaylistItem).length ∧
    (([vid ("zzz") ("PT9S"), vid ("aaa") ("PT2M")] : List VideoItem).find?
        (fun v => v.id ==
          (([mkItem ("aaa") ("Alpha"), mkItem ("bbb") ("Beta")] :
            List PlaylistItem).get ⟨1, by decide⟩).snippet.resourceId.videoId) = none →
      ((buildSelectedVideos [mkItem ("aaa") ("Alpha"), mkItem ("bbb") ("Beta")]
          [vid ("zzz") ("PT9S"), vid ("aaa") ("PT2M")]).get ⟨1, by decide⟩).durationSeconds = 0 ∧
      ((buildSelectedVideos [mkItem ("aaa") ("Alpha"), mkItem ("bbb") ("Beta")]
          [vid ("zzz") ("PT9S"), vid ("aaa") ("PT2M")]).get ⟨1, by decide⟩).duration = "PT0S") :=
  ⟨(join_ordering_c7 [mkItem ("aaa") ("Alpha"), mkItem ("bbb") ("Beta")]
      [vid ("zzz") ("PT9S"), vid ("aaa") ("PT2M")]).1,
   ((join_ordering_c7 [mkItem ("aaa") ("Alpha"), mkItem ("bbb") ("Beta")]
      [vid ("zzz") ("PT9S"), vid ("aaa") ("PT2M")]).2 1 (by decide) (by decide)).2.2.1⟩

/-! ## Handler-level lemmas -/

lemma totalOf_eq_sum (l : List VideoSummary) :
    totalOf l = (l.map VideoSummary.durationSeconds).sum := by
  suffices h : ∀ a : Nat, l.foldl (fun sum video => sum + video.durationSeconds) a =
      a + (l.map VideoSummary.durationSeconds).sum by
    simpa [totalOf] using h 0
  induction l with
  | nil => intro a; simp
  | cons v l ih =>
    intro a
    simp only [List.foldl_cons, List.map_cons, List.sum_cons, ih (a + v.durationSeconds)]
    omega

lemma selectItems_ok_pos (c : Bool) (s e : Int) (items sel : List PlaylistItem)
    (hN : items.length ≠ 0)
    (h : selectItems c s e items = Except.ok sel) : 1 ≤ sel.length := by
  cases c with
  | true =>
    simp only [selectItems, if_true] at h
    injection h with h
    rw [← h]
    omega
  | false =>
    simp only [selectItems, Bool.false_eq_true, if_false] at h
    by_cases hcond : s < 1 ∨ e < s ∨ s > (items.length : Int)
    · rw [if_pos hcond] at h
      cases h
    · rw [if_neg hcond] at h
      injection h with h
      rw [← h]
      simp only [jsSlice, List.length_take, List.length_drop]
      omega

lemma POST_ok_inv (playlistUrl : String) (startVideo endVideo : Int)
    (completePlaylist : Bool) (apiKey : Option String) (pages : List PlaylistResponse)
    (videosSvc : List String → List VideoItem) (o : TitleOutcome)
    (r : AggregateResult) (calls : List (List String))
    (h : POST playlistUrl startVideo endVideo completePlaylist apiKey pages videosSvc o =
      (PostResponse.ok r, calls)) :
    ∃ selected,
      selectItems completePlaylist startVideo endVideo (fetchAllPlaylistItems pages) =
        Except.ok selected ∧
      (fetchAllPlaylistItems pages).length ≠ 0 ∧
      r.playlist.title = resolveTitle o ∧
      r.playlist.totalVideos = (fetchAllPlaylistItems pages).length ∧
      r.playlist.videos = [] ∧
      r.selectedVideos = buildSelectedVideos selected
        (fetchVideoDetails (selected.map (fun item => item.snippet.resourceId.videoId))
          videosSvc).1 ∧
      r.totalDuration = totalOf r.selectedVideos ∧
      r.averageDuration = mathRoundDiv r.totalDuration r.selectedVideos.length ∧
      calls = (fetchVideoDetails (selected.map (fun item => item.snippet.resourceId.videoId))
        videosSvc).2 := by
  unfold POST at h
  split_ifs at h with h1 h2 h3 h4
  · exact absurd h (by simp)
  · exact absurd h (by simp)
  · exact absurd h (by simp)
  · exact absurd h (by simp)
  · cases hsel : selectItems completePlaylist startVideo endVideo
        (fetchAllPlaylistItems pages) with
    | error msg =>
      rw [hsel] at h
      exact absurd h (by simp)
    | ok selected =>
      rw [hsel] at h
      refine ⟨selected, rfl, h4, ?_⟩
      have hred : postAfterSelection selected (fetchAllPlaylistItems pages).length
          videosSvc o = (PostResponse.ok r, calls) := h
      have hfst : (postAfterSelection selected (fetchAllPlaylistItems pages).length
          videosSvc o).1 = PostResponse.ok r := by rw [hred]
      have hsnd : (postAfterSelection selected (fetchAllPlaylistItems pages).length
          videosSvc o).2 = calls := by rw [hred]
      simp only [postAfterSelection, PostResponse.ok.injEq] at hfst hsnd
      rw [← hfst, ← hsnd]
      refine ⟨rfl, rfl, rfl, rfl, rfl, rfl, rfl⟩

/-! ## Claim C2: invalid range rejection -/

/-- C2.  Invalid range rejection: for an explicit selection (completePlaylist
unset) against a non-empty membership of length N, with a parseable playlist
URL and a configured key, a request with start = 0, end < start or start > N
is answered with a 400 rejection carrying an explanatory message, and no
detail batch lookup is ever issued (the second component of the result, the
list of issued detail batch requests, is empty). -/
theorem invalid_range_c2 (playlistUrl : String) (startVideo endVideo : Int)
    (apiKey : String) (pages : List PlaylistResponse)
    (videosSvc : List String → List VideoItem) (o : TitleOutcome)
    (hkey : apiKey ≠ "")
    (hurl : extractPlaylistId playlistUrl ≠ none)
    (hN : (fetchAllPlaylistItems pages).length ≠ 0)
    (hrange : startVideo = 0 ∨ endVideo < startVideo ∨
      startVideo > ((fetchAllPlaylistItems pages).length : Int)) :
    ∃ msg, msg ≠ "" ∧
      POST playlistUrl startVideo endVideo false (some apiKey) pages videosSvc o =
        (PostResponse.error 400 msg, []) := by
  have hne : ¬ playlistUrl = "" := by
    intro hh
    apply hurl
    rw [hh]
    rfl
  by_cases h0 : startVideo = 0 ∨ endVideo = 0
  · refine ⟨("Missing required fields"), by decide, ?_⟩
    unfold POST
    rw [if_pos (Or.inr ⟨rfl, h0⟩)]
  · push_neg at h0
    obtain ⟨hs0, he0⟩ := h0
    refine ⟨("Invalid video range"), by decide, ?_⟩
    have hcond : startVideo < 1 ∨ endVideo < startVideo ∨
        startVideo > ((fetchAllPlaylistItems pages).length : Int) := by
      rcases hrange with hr | hr | hr
      · exact absurd hr hs0
      · exact Or.inr (Or.inl hr)
      · exact Or.inr (Or.inr hr)
    have hsel : selectItems false startVideo endVideo (fetchAllPlaylistItems pages) =
        Except.error ("Invalid video range") := by
      rw [selectItems, if_neg (by simp), if_pos hcond]
    unfold POST
    rw [if_neg (by simp [hne, hs0, he0]), if_neg (by simp [hkey]), if_neg hurl,
      if_neg hN, hsel]

/-! ## Concrete request scenario shared by the handler-level witnesses -/

/-- Sample playlist URL. -/
def sampleUrl : String := "https://www.youtube.com/playlist?list=PLsample01"

/-- Sample membership delivered as two pages. -/
def samplePages : List PlaylistResponse :=
  [⟨[mkItem ("aaa") ("Alpha"), mkItem ("bbb") ("Beta")], some ("page2")⟩,
   ⟨[mkItem ("ccc") ("Gamma")], none⟩]

/-- Sample details, deliberately not in membership order; durations are
2, 3 and 5 minutes. -/
def sampleDetails : List VideoItem :=
  [vid ("bbb") ("PT3M"), vid ("aaa") ("PT2M"), vid ("ccc") ("PT5M")]

/-- Sample details service. -/
def sampleSvc : List String → List VideoItem := fun _ => sampleDetails

/-- Two-entry membership whose durations are 100 and 101 seconds. -/
def pages101 : List PlaylistResponse :=
  [⟨[mkItem ("p") ("P"), mkItem ("q") ("Q")], none⟩]

/-- Details service for the 100/101 scenario. -/
def svc101 : List String → List VideoItem :=
  fun _ => [vid ("p") ("PT1M40S"), vid ("q") ("PT1M41S")]

/-- Total duration of a successful response. -/
def okTotal (p : PostResponse × List (List String)) : Option Nat :=
  match p.1 with
  | PostResponse.ok r => some r.totalDuration
  | PostResponse.error _ _ => none

/-- Average duration of a successful response. -/
def okAverage (p : PostResponse × List (List String)) : Option Nat :=
  match p.1 with
  | PostResponse.ok r => some r.averageDuration
  | PostResponse.error _ _ => none

/-- Concrete instantiation of C2: start = 0 against a 3-entry membership. -/
theorem invalid_range_c2_witness :
    ∃ msg, msg ≠ "" ∧
      POST sampleUrl 0 5 false (some ("key")) samplePages sampleSvc
          TitleOutcome.fetchError =
        (PostResponse.error 400 msg, []) :=
  invalid_range_c2 sampleUrl 0 5 ("key") samplePages sampleSvc TitleOutcome.fetchError
    (by decide) (by decide) (by decide) (Or.inl rfl)

/-- Successful result of the sample run with a working title lookup. -/
def sampleResult : AggregateResult :=
  { playlist := { title := "My List", totalVideos := 3, videos := [] }
    selectedVideos :=
      [{ id := "aaa", title := "Alpha", duration := "PT2M", durationSeconds := 120 },
       { id := "bbb", title := "Beta", duration := "PT3M", durationSeconds := 180 },
       { id := "ccc", title := "Gamma", duration := "PT5M", durationSeconds := 300 }]
    totalDuration := 600
    averageDuration := 200 }

/-! ## Claim C8: title-lookup failure isolation -/

/-- Replace the playlist title of a successful response, leaving failures and
every other field untouched. -/
def withTitle (t : String) : PostResponse → PostResponse
  | PostResponse.ok r => PostResponse.ok { r with playlist := { r.playlist with title := t } }
  | PostResponse.error s m => PostResponse.error s m

/-- The three failing outcomes of the best-effort title lookup: the fetch
threw, the response was not ok, or the response carried no items. -/
def titleLookupFailed (o : TitleOutcome) : Prop :=
  o = TitleOutcome.fetchError ∨ o = TitleOutcome.notOk ∨ o = TitleOutcome.okNoItems

lemma resolveTitle_failed (o : TitleOutcome) (h : titleLookupFailed o) :
    resolveTitle o = "Unknown Playlist" := by
  rcases h with rfl | rfl | rfl <;> rfl

lemma postAfterSelection_title (sel : List PlaylistItem) (n : Nat)
    (svc : List String → List VideoItem) (o o2 : TitleOutcome) :
    postAfterSelection sel n svc o =
      (withTitle (resolveTitle o) ((postAfterSelection sel n svc o2).1),
       (postAfterSelection sel n svc o2).2) := rfl

lemma POST_title (playlistUrl : String) (startVideo endVideo : Int)
    (completePlaylist : Bool) (apiKey : Option String) (pages : List PlaylistResponse)
    (videosSvc : List String → List VideoItem) (o o2 : TitleOutcome) :
    POST playlistUrl startVideo endVideo completePlaylist apiKey pages videosSvc o =
      (withTitle (resolveTitle o)
        ((POST playlistUrl startVideo endVideo completePlaylist apiKey pages videosSvc o2).1),
       (POST playlistUrl startVideo endVideo completePlaylist apiKey pages videosSvc o2).2) := by
  unfold POST
  split_ifs
  · rfl
  · rfl
  · rfl
  · rfl
  · cases hsel : selectItems completePlaylist startVideo endVideo
        (fetchAllPlaylistItems pages) with
    | error msg => rfl
    | ok sel => exact postAfterSelection_title sel _ videosSvc o o2

/-- C8.  Title-lookup failure isolation: whenever the aggregation succeeds
under any title-lookup outcome, it still succeeds under each failing outcome
(thrown fetch, non-ok response, or empty item list), producing the fixed
fallback title and leaving every other field of the result, and the issued
detail requests, unchanged. -/
theorem title_isolation_c8 (playlistUrl : String) (startVideo endVideo : Int)
    (completePlaylist : Bool) (apiKey : Option String) (pages : List PlaylistResponse)
    (videosSvc : List String → List VideoItem)
    (o : TitleOutcome) (hfail : titleLookupFailed o)
    (o2 : TitleOutcome) (r : AggregateResult) (calls : List (List String))
    (h : POST playlistUrl startVideo endVideo completePlaylist apiKey pages videosSvc o2 =
      (PostResponse.ok r, calls)) :
    POST playlistUrl startVideo endVideo completePlaylist apiKey pages videosSvc o =
      (PostResponse.ok
        { r with playlist := { r.playlist with title := "Unknown Playlist" } },
       calls) := by
  rw [POST_title playlistUrl startVideo endVideo completePlaylist apiKey pages videosSvc o o2,
    h, resolveTitle_failed o hfail]
  rfl

/-- Concrete instantiation of C8: the sample run still succeeds when the
title fetch throws, with the fallback title and all other fields equal. -/
theorem title_isolation_c8_witness :
    POST sampleUrl 1 3 false (some ("key")) samplePages sampleSvc TitleOutcome.fetchError =
      (PostResponse.ok
        { sampleResult with playlist :=
          { sampleResult.playlist with title := "Unknown Playlist" } },
       [["aaa", "bbb", "ccc"]]) :=
  title_isolation_c8 sampleUrl 1 3 false (some ("key")) samplePages sampleSvc
    TitleOutcome.fetchError (Or.inl rfl) (TitleOutcome.okTitle ("My List")) sampleResult
    ([["aaa", "bbb", "ccc"]]) (by decide)

/-! ## Claim C10: result shape -/

/-- C10.  Result shape of every successful response: the playlist object
reports totalVideos equal to the length of the full fetched membership, not
the selected subset size, and its nested videos field is the empty list. -/
theorem result_shape_c10 (playlistUrl : String) (startVideo endVideo : Int)
    (completePlaylist : Bool) (apiKey : Option String) (pages : List PlaylistResponse)
    (videosSvc : List String → List VideoItem) (o : TitleOutcome)
    (r : AggregateResult) (calls : List (List String))
    (h : POST playlistUrl startVideo endVideo completePlaylist apiKey pages videosSvc o =
      (PostResponse.ok r, calls)) :
    r.playlist.totalVideos = (fetchAllPlaylistItems pages).length ∧
    r.playlist.videos = [] := by
  obtain ⟨sel, _, _, _, h4, h5, _⟩ :=
    POST_ok_inv playlistUrl startVideo endVideo completePlaylist apiKey pages videosSvc
      o r calls h
  exact ⟨h4, h5⟩

/-- Concrete instantiation of C10: the sample run selects 3 of 3 entries and
reports totalVideos 3 with an empty nested videos list. -/
theorem result_shape_c10_witness :
    sampleResult.playlist.totalVideos = (fetchAllPlaylistItems samplePages).length ∧
    sampleResult.playlist.videos = [] :=
  result_shape_c10 sampleUrl 1 3 false (some ("key")) samplePages sampleSvc
    (TitleOutcome.okTitle ("My List")) sampleResult ([["aaa", "bbb", "ccc"]]) (by decide)

/-! ## Claim C4: aggregation arithmetic -/

/-- C4.  Aggregation arithmetic: every successful response has at least one
selected video (an empty membership is rejected before aggregation, and an
accepted range is never empty), its totalDuration is the sum of the selected
durationSeconds, and its averageDuration is Math.round of total over count,
the deterministic round-half-up convention; for the selected durations
120, 180, 300 the total is 600 and the average 200, and for 100, 101 the
average is round(100.5) = 101. -/
theorem aggregation_arithmetic_c4 :
    (∀ (playlistUrl : String) (startVideo endVideo : Int) (completePlaylist : Bool)
       (apiKey : Option String) (pages : List PlaylistResponse)
       (videosSvc : List String → List VideoItem) (o : TitleOutcome)
       (r : AggregateResult) (calls : List (List String)),
      POST playlistUrl startVideo endVideo completePlaylist apiKey pages videosSvc o =
          (PostResponse.ok r, calls) →
        1 ≤ r.selectedVideos.length ∧
        r.totalDuration = (r.selectedVideos.map VideoSummary.durationSeconds).sum ∧
        r.averageDuration = mathRoundDiv r.totalDuration r.selectedVideos.length) ∧
    mathRoundDiv 600 3 = 200 ∧
    mathRoundDiv 201 2 = 101 ∧
    okTotal (POST sampleUrl 1 3 false (some ("key")) samplePages sampleSvc
      TitleOutcome.okNoItems) = some 600 ∧
    okAverage (POST sampleUrl 1 3 false (some ("key")) samplePages sampleSvc
      TitleOutcome.okNoItems) = some 200 ∧
    okTotal (POST sampleUrl 0 0 true (some ("key")) pages101 svc101
      TitleOutcome.okNoItems) = some 201 ∧
    okAverage (POST sampleUrl 0 0 true (some ("key")) pages101 svc101
      TitleOutcome.okNoItems) = some 101 := by
  refine ⟨?_, by decide, by decide, by decide, by decide, by decide, by decide⟩
  intro playlistUrl startVideo endVideo completePlaylist apiKey pages videosSvc o r calls h
  obtain ⟨sel, hsel, hN, _, _, _, hsv, htd, havg, _⟩ :=
    POST_ok_inv playlistUrl startVideo endVideo completePlaylist apiKey pages videosSvc
      o r calls h
  refine ⟨?_, ?_, havg⟩
  · have hlen : r.selectedVideos.length = sel.length := by
      rw [hsv]
      simp [buildSelectedVideos]
    rw [hlen]
    exact selectItems_ok_pos completePlaylist startVideo endVideo _ sel hN hsel
  · rw [htd, totalOf_eq_sum]

/-- Concrete instantiation of the quantified part of C4 at the sample run. -/
theorem aggregation_arithmetic_c4_witness :
    1 ≤ sampleResult.selectedVideos.length ∧
    sampleResult.totalDuration =
      (sampleResult.selectedVideos.map VideoSummary.durationSeconds).sum ∧
    sampleResult.averageDuration =
      mathRoundDiv sampleResult.totalDuration sampleResult.selectedVideos.length :=
  aggregation_arithmetic_c4.1 sampleUrl 1 3 false (some ("key")) samplePages sampleSvc
    (TitleOutcome.okTitle ("My List")) sampleResult ([["aaa", "bbb", "ccc"]]) (by decide)
